import Mathlib

/-!
Verification of the `mcp_akshare` document-derived function registry.

Shallow embedding of:
 - `src/mcp_akshare/formatters.py` (result normalization),
 - `src/mcp_akshare/registry.py` (catalog parsing, search index, dispatch).

Python strings are modeled as `List Char` (`PyStr`) where character-level
operations (split, strip, lower, substring) matter, and as `String`
elsewhere.  Machine behaviour that belongs to external libraries (pandas,
the `akshare` provider namespace, the filesystem) is modeled as explicit
parameters: the provider is a partial map from bare names to fallible
callables, the documentation directory is a value, and the
`pd.to_datetime(..., errors="coerce")` column conversion of
`_format_dataframe` is an elementwise per-column-name conversion function.
-/

/-- Python strings at character granularity. -/
abbrev PyStr := List Char

/-- Whitespace recognized by Python's `str.split()` / `str.strip()` and by
the regex class `\s` (ASCII fragment: space, tab, newline, carriage return,
vertical tab, form feed). -/
def isPySpace (c : Char) : Bool :=
  c == ' ' || c == '\t' || c == '\n' || c == '\r' || c == '\x0b' || c == '\x0c'

/-- Word characters of the regex class `[\w]` used by
`re.findall(r"[\w]+", description)`; Python 3 regexes are Unicode-aware, so
non-ASCII letters (e.g. Chinese) count as word characters.  Modeled as
ASCII alphanumerics, underscore, and all non-ASCII characters. -/
def isWordChar (c : Char) : Bool :=
  c.isAlphanum || c == '_' || decide (c.toNat > 127)

/-- Python `str.lower()`, ASCII fragment (`Char.toLower` lowers `A`-`Z`). -/
def toLowerL (s : PyStr) : PyStr := s.map Char.toLower

/-- Maximal runs of characters satisfying `p`; characters not satisfying
`p` are separators and are dropped.  `acc` holds the current run reversed. -/
def runsAux (p : Char → Bool) : List Char → List Char → List PyStr
  | [], acc => if acc.isEmpty then [] else [acc.reverse]
  | c :: cs, acc =>
    if p c then runsAux p cs (c :: acc)
    else if acc.isEmpty then runsAux p cs []
    else acc.reverse :: runsAux p cs []

/-- Python `str.split()` with no argument: split on whitespace runs,
discarding empty fragments. -/
def pyWords (s : PyStr) : List PyStr := runsAux (fun c => !isPySpace c) s []

/-- `re.findall(r"[\w]+", s)`: maximal word-character runs. -/
def findallWords (s : PyStr) : List PyStr := runsAux isWordChar s []

/-- Python `str.strip()`: drop leading and trailing whitespace. -/
def pyStrip (s : PyStr) : PyStr :=
  ((s.dropWhile isPySpace).reverse.dropWhile isPySpace).reverse

/-- `str.strip()` on `String` values. -/
def pyStripStr (s : String) : String := String.mk (pyStrip s.data)

/-- Python substring test `needle in hay`. -/
def pyIn (needle hay : PyStr) : Bool := decide (needle <:+: hay)

/-- First-seen-order deduplication (`acc` is the set of already-kept
elements), matching Python `dict` / `set` insertion-order semantics. -/
def pyDedupAux [BEq α] : List α → List α → List α
  | [], _ => []
  | x :: xs, seen =>
    if seen.contains x then pyDedupAux xs seen
    else x :: pyDedupAux xs (x :: seen)

/-- Deduplication keeping the first occurrence of each element. -/
def pyDedup [BEq α] (l : List α) : List α := pyDedupAux l []

/-! ## Values returned by provider calls (`formatters.py` data model)

`Cell` models the scalar cell values of a pandas `DataFrame` / `Series`;
`Value` models an arbitrary Python value flowing through `format_result`.
`Cell.nan` covers every `pd.isna`-true scalar (`float('nan')`, `None`,
`pd.NA`); `Cell.datetime` covers the `isinstance (pd.Timestamp, datetime,
date)` family and carries its `str()` rendering (note `pd.NaT` is an
instance of `datetime`, hence modeled as `Cell.datetime "NaT"`). -/

/-- A scalar cell of a tabular value. -/
inductive Cell where
  | null
  | bool (b : Bool)
  | int (n : Int)
  | float (q : ℚ)
  | nan
  | str (s : String)
  | datetime (s : String)
deriving DecidableEq

/-- A pandas `DataFrame`: named columns and rows of cells (row `i` pairs
positionally with `cols`). -/
structure DFrame where
  cols : List String
  rows : List (List Cell)
deriving DecidableEq

/-- An arbitrary Python value reaching `format_result`.  `Value.null` is
Python `None`; `Value.obj` is any other opaque object (set, custom class,
...) identified by a tag. -/
inductive Value where
  | null
  | bool (b : Bool)
  | int (n : Int)
  | float (q : ℚ)
  | nan
  | str (s : String)
  | datetime (s : String)
  | df (d : DFrame)
  | series (kvs : List (String × Cell))
  | list (xs : List Value)
  | dict (kvs : List (String × Value))
  | obj (tag : String)

/-- Injection of scalar cells into `Value`. -/
def cellToValue : Cell → Value
  | .null => .null
  | .bool b => .bool b
  | .int n => .int n
  | .float q => .float q
  | .nan => .nan
  | .str s => .str s
  | .datetime s => .datetime s

/-- `formatters.py` lines 66-70: per-cell normalization of a record value —
date/time instances become their `str()` rendering, `pd.isna`-true values
become `None` (`Cell.null` is `pd.isna`-true). -/
def normCellVal : Cell → Value
  | .datetime s => .str s
  | .nan => .null
  | .null => .null
  | c => cellToValue c

/-- Python `"error" in result` for a dict value. -/
def hasKey (kvs : List (String × Value)) (k : String) : Bool :=
  kvs.any (fun p => p.1 == k)

/-- `_format_dataframe(df, max_rows)` (`formatters.py` lines 40-78).
`dtConv` models the per-column `pd.to_datetime(col, errors="coerce")`
attempt of lines 50-59 as an elementwise conversion keyed by column name
(the `dtype == "object"` test, the 10-element sampling and the
`try/except: pass` are absorbed into the choice of `dtConv`; an identity
`dtConv` is the no-conversion case).  Lines 61-70 (`to_dict(orient=
"records")` followed by per-cell normalization) are fused into building
`data` directly.  Note line 76 computes `len(df)` only after line 44
reassigned `df` to its truncated head. -/
def format_dataframe (dtConv : String → Cell → Cell) (df : DFrame)
    (max_rows : Nat) : Value :=
  let truncated : Bool := decide (max_rows < df.rows.length)
  let rows1 := if max_rows < df.rows.length then df.rows.take max_rows else df.rows
  let data : List Value := rows1.map fun row =>
    Value.dict ((df.cols.zip row).map fun cv => (cv.1, normCellVal (dtConv cv.1 cv.2)))
  if truncated then
    Value.dict [("data", Value.list data),
      ("warning", Value.str s!"数据已截断，只显示前 {max_rows} 行"),
      ("total_rows", Value.int (rows1.length : Int))]
  else
    Value.dict [("data", Value.list data)]

/-- `_format_list(items, max_rows)` (`formatters.py` lines 81-101).  When
the first element is a `DataFrame` each of the first `max_rows` elements is
formatted as a `DataFrame` — a non-`DataFrame` element on that path makes
`_format_dataframe` fault (`AttributeError` in Python), modeled as
`Except.error`. -/
def format_list (dtConv : String → Cell → Cell) (items : List Value)
    (max_rows : Nat) : Except String Value :=
  match items with
  | [] => .ok (.dict [("data", .list [])])
  | x :: xs =>
    match x with
    | .df _ =>
      match (x :: xs).take max_rows |>.mapM (fun v =>
          match v with
          | .df d => Except.ok (format_dataframe dtConv d max_rows)
          | _ => Except.error "AttributeError") with
      | .error e => .error e
      | .ok result =>
        if max_rows < (x :: xs).length then
          .ok (.dict [("data", .list result),
            ("warning", .str s!"只显示前 {max_rows} 个")])
        else
          .ok (.dict [("data", .list result)])
    | _ => .ok (.dict [("data", .list (x :: xs))])

mutual

/-- `format_result(result, max_rows)` (`formatters.py` lines 11-37):
dispatch on the dynamic type of the value, in source order (`None`,
error-shaped dict, `DataFrame`, `Series`, list, dict, any other value
unchanged). -/
def format_result (dtConv : String → Cell → Cell) (result : Value)
    (max_rows : Nat) : Except String Value :=
  match result with
  | .null => .ok (.dict [("message", .str "无数据")])
  | .dict kvs =>
    if hasKey kvs "error" then .ok (.dict kvs)
    else
      match format_dict dtConv kvs max_rows with
      | .ok kvs2 => .ok (.dict kvs2)
      | .error e => .error e
  | .df d => .ok (format_dataframe dtConv d max_rows)
  | .series kvs => .ok (.dict (kvs.map fun p => (p.1, cellToValue p.2)))
  | .list xs => format_list dtConv xs max_rows
  | v => .ok v
termination_by sizeOf result

/-- `_format_dict(data, max_rows)` (`formatters.py` lines 104-114):
`DataFrame` values are formatted, list/dict values recurse through
`format_result`, every other value passes through unchanged. -/
def format_dict (dtConv : String → Cell → Cell)
    (kvs : List (String × Value)) (max_rows : Nat) :
    Except String (List (String × Value)) :=
  match kvs with
  | [] => .ok []
  | (k, v) :: rest =>
    let fv : Except String Value :=
      match v with
      | .df d => .ok (format_dataframe dtConv d max_rows)
      | .list xs => format_result dtConv (.list xs) max_rows
      | .dict kvs2 => format_result dtConv (.dict kvs2) max_rows
      | other => .ok other
    match fv with
    | .error e => .error e
    | .ok v2 =>
      match format_dict dtConv rest max_rows with
      | .error e => .error e
      | .ok rest2 => .ok ((k, v2) :: rest2)
termination_by sizeOf kvs

end

mutual

/-- JSON-serializability of a value: every leaf must be a JSON primitive,
string or null — native date/time objects, NaN sentinels, raw
`DataFrame`/`Series` objects and opaque objects are not serializable. -/
def jsonSafe : Value → Bool
  | .null => true
  | .bool _ => true
  | .int _ => true
  | .float _ => true
  | .str _ => true
  | .nan => false
  | .datetime _ => false
  | .df _ => false
  | .series _ => false
  | .obj _ => false
  | .list xs => jsonSafeList xs
  | .dict kvs => jsonSafeKVs kvs

/-- All elements of a list are JSON-serializable. -/
def jsonSafeList : List Value → Bool
  | [] => true
  | x :: xs => jsonSafe x && jsonSafeList xs

/-- All values of a string-keyed mapping are JSON-serializable. -/
def jsonSafeKVs : List (String × Value) → Bool
  | [] => true
  | (_, v) :: rest => jsonSafe v && jsonSafeKVs rest

end

/-- Field lookup in a `Value.dict`; `none` on any other value shape. -/
def valLookup (v : Value) (k : String) : Option Value :=
  match v with
  | .dict kvs => List.lookup k kvs
  | _ => none

/-! ## `registry.py`: data model -/

/-- One row of the parsed parameter table (`{"name": ..., "type": ...}`). -/
structure ParamInfo where
  name : String
  type : String
deriving DecidableEq

/-- `FunctionInfo` (`registry.py` lines 14-22). -/
structure FunctionInfo where
  name : String
  full_name : String
  category : String
  description : String
  params : List ParamInfo
  doc_path : String
deriving DecidableEq

/-- The dict produced by `FunctionInfo.to_search_result`. -/
structure SearchResult where
  name : String
  description : String
  category : String
  params : List ParamInfo
  full_name : String
deriving DecidableEq

/-- `FunctionInfo.to_search_result` (`registry.py` lines 24-36): strip a
leading `ak_` from the display name. -/
def to_search_result (info : FunctionInfo) : SearchResult :=
  let display_name :=
    if List.isPrefixOf "ak_".data info.full_name.data then
      String.mk (info.full_name.data.drop 3)
    else info.full_name
  { name := display_name, description := info.description,
    category := info.category, params := info.params,
    full_name := info.full_name }

/-! ## `registry.py`: document parsing -/

/-- Canonical-id derivation (`registry.py` lines 113-118): avoid a
duplicated category segment when the bare name is already
category-prefixed.  `List.isPrefixOf` on the character lists embeds Python
`func_name.startswith(f"{category}_")`. -/
def derive_full_name (category func_name : String) : String :=
  if List.isPrefixOf (category ++ "_").data func_name.data then
    "ak_" ++ func_name
  else
    "ak_" ++ category ++ "_" ++ func_name

/-- First character class of the parameter-name regex `[a-zA-Z_]`. -/
def isIdentStart (c : Char) : Bool :=
  ('a' ≤ c && c ≤ 'z') || ('A' ≤ c && c ≤ 'Z') || c == '_'

/-- Continuation character class `[a-zA-Z0-9_]`. -/
def isIdentChar (c : Char) : Bool :=
  isIdentStart c || ('0' ≤ c && c ≤ '9')

/-- `re.match(r'\|\s*([a-zA-Z_][a-zA-Z0-9_]*)\s*\|', line)` (`registry.py`
line 102), anchored at the start of the line; greediness needs no
backtracking because identifier characters, whitespace and `|` are
pairwise disjoint. -/
def matchParamName (line : PyStr) : Option PyStr :=
  match line with
  | '|' :: rest =>
    match rest.dropWhile isPySpace with
    | c :: cs =>
      if isIdentStart c then
        let ident := c :: cs.takeWhile isIdentChar
        match (cs.dropWhile isIdentChar).dropWhile isPySpace with
        | '|' :: _ => some ident
        | _ => none
      else none
    | [] => none
  | _ => none

/-- Attempt of the type-column pattern `\|[^\|]+\|([^\|]+)\|` at a position
whose leading `|` has already been consumed: a nonempty pipe-free field,
`|`, a captured nonempty pipe-free field, `|`. -/
def matchTypeAt (rest : PyStr) : Option PyStr :=
  let f1 := rest.takeWhile (fun c => !(c == '|'))
  if f1.isEmpty then none
  else
    match rest.dropWhile (fun c => !(c == '|')) with
    | '|' :: rest2 =>
      let f2 := rest2.takeWhile (fun c => !(c == '|'))
      if f2.isEmpty then none
      else
        match rest2.dropWhile (fun c => !(c == '|')) with
        | '|' :: _ => some f2
        | _ => none
    | _ => none

/-- `re.search(r'\|[^\|]+\|([^\|]+)\|', line)` (`registry.py` line 106):
try the pattern at each position left to right, returning the first
capture. -/
def searchTypeCol : PyStr → Option PyStr
  | [] => none
  | c :: rest =>
    match (if c == '|' then matchTypeAt rest else none) with
    | some t => some t
    | none => searchTypeCol rest

/-- Parsing of one parameter-table line (`registry.py` lines 96-111):
separator/header lines (containing `---`, `名称` or `类型`) are skipped;
otherwise the anchored name match decides inclusion and the type column
defaults to `"string"`. -/
def parseParamRow (line : PyStr) : Option ParamInfo :=
  if pyIn "---".data line || pyIn "名称".data line || pyIn "类型".data line then
    none
  else
    match matchParamName line with
    | none => none
    | some pname =>
      let ptype :=
        match searchTypeCol line with
        | some t => String.mk (pyStrip t)
        | none => "string"
      some { name := String.mk pname, type := ptype }

/-- One interface block, i.e. one match of the block regex
`接口:\s*(\w+)\s*\n(.*?)(?=\n接口:|\Z)` (`registry.py` line 80), with the
two inner regex extractions applied to the block body: `descLine` is the
capture of `描述:\s*([^\n]+)` when present, `tableLines` are the
pipe-delimited lines captured by `输入参数\s*\n((?:\|[^\n]+\n)+)` (empty
when the table is absent).  The raw-text regex scanning itself is external
string machinery; the embedding starts from its match results. -/
structure DocBlock where
  funcName : String
  descLine : Option PyStr
  tableLines : List PyStr

/-- Python dict assignment `d[k] = v`: replace the value of an existing
key in place, otherwise append. -/
def dictInsert (fns : List (String × FunctionInfo)) (k : String)
    (v : FunctionInfo) : List (String × FunctionInfo) :=
  match fns with
  | [] => [(k, v)]
  | (k2, v2) :: rest =>
    if k2 == k then (k2, v) :: rest
    else (k2, v2) :: dictInsert rest k v

/-- `_parse_doc_file` (`registry.py` lines 73-129): for every interface
block build a `FunctionInfo` (stripped description defaulting to `""`,
parameter rows, derived canonical id) and store it under its canonical id,
last write winning. -/
def parse_doc_file (functions : List (String × FunctionInfo))
    (filepath category : String) (blocks : List DocBlock) :
    List (String × FunctionInfo) :=
  blocks.foldl (fun fns b =>
    let description :=
      match b.descLine with
      | some d => String.mk (pyStrip d)
      | none => ""
    let params := b.tableLines.filterMap parseParamRow
    let full_name := derive_full_name category b.funcName
    dictInsert fns full_name
      { name := b.funcName, full_name := full_name, category := category,
        description := description, params := params, doc_path := filepath })
    functions

/-- `_parse_all_docs` (`registry.py` lines 59-71).  The filesystem is a
value: `none` models a missing documentation directory
(`os.path.isdir` false — registry continues with no records), `some files`
models the directory listing, each file given by name and the interface
blocks its content yields.  Only `.md` files are parsed; the category is
the filename without its 3-character extension. -/
def parse_all_docs (docs : Option (List (String × List DocBlock)))
    (docs_dir : String) (functions : List (String × FunctionInfo)) :
    List (String × FunctionInfo) :=
  match docs with
  | none => functions
  | some files =>
    files.foldl (fun fns file =>
      if List.isSuffixOf ".md".data file.1.data then
        let category := String.mk (file.1.data.take (file.1.data.length - 3))
        parse_doc_file fns (docs_dir ++ "/" ++ file.1) category file.2
      else fns) functions

/-! ## `registry.py`: search index -/

/-- The inner insertion of `_build_index` (`registry.py` lines 146-151):
create the keyword's bucket when absent, then append the id if not already
present. -/
def indexInsert (index : List (PyStr × List String)) (kw : PyStr)
    (full_name : String) : List (PyStr × List String) :=
  match index with
  | [] => [(kw, [full_name])]
  | (k, fs) :: rest =>
    if k == kw then
      (k, if fs.contains full_name then fs else fs ++ [full_name]) :: rest
    else (k, fs) :: indexInsert rest kw full_name

/-- `_build_index` (`registry.py` lines 131-151): for every record, the
keywords are its category, bare name, the word-character runs of a
nonempty description, and its parameter names; each keyword is lowercased
and the record's id appended to that keyword's bucket (deduplicated). -/
def build_index (functions : List (String × FunctionInfo))
    (index : List (PyStr × List String)) : List (PyStr × List String) :=
  functions.foldl (fun idx p =>
    let info := p.2
    let keywords := [info.category, info.name]
      ++ (if info.description ≠ "" then
            (findallWords info.description.data).map String.mk
          else [])
      ++ info.params.map (fun q => q.name)
    keywords.foldl (fun idx2 kw => indexInsert idx2 (toLowerL kw.data) p.1) idx)
    index

/-- The mutable state of a `DocRegistry` (`registry.py` lines 42-46). -/
structure RegistryState where
  functions : List (String × FunctionInfo)
  index : List (PyStr × List String)
  initialized : Bool
deriving DecidableEq

/-- `DocRegistry.initialize` (`registry.py` lines 48-57): a no-op when the
`_initialized` flag is set; otherwise parse all documents, build the index
over the resulting catalog, and set the flag. -/
def initialize_registry (docs : Option (List (String × List DocBlock)))
    (docs_dir : String) (st : RegistryState) : RegistryState :=
  if st.initialized then st
  else
    let fns := parse_all_docs docs docs_dir st.functions
    let idx := build_index fns st.index
    { functions := fns, index := idx, initialized := true }

/-! ## `registry.py`: search -/

/-- The per-token candidate set `word_results` (`registry.py` lines
164-171): ids from an exact index hit, unioned with the ids of every
indexed keyword related to the token by bidirectional substring
containment.  The union is a Python `set`; the embedding fixes
first-seen order. -/
def wordResults (index : List (PyStr × List String)) (word : PyStr) :
    List String :=
  let exact :=
    match List.lookup word index with
    | some fs => fs
    | none => []
  let fuzzy := index.flatMap fun kf =>
    if pyIn word kf.1 || pyIn kf.1 word then kf.2 else []
  pyDedup (exact ++ fuzzy)

/-- The query pipeline of `DocRegistry.search` (`registry.py` lines
155-159): `keyword.lower().strip()` then whitespace tokenization. -/
def queryTokens (keyword : String) : List PyStr :=
  pyWords (pyStrip (toLowerL keyword.data))

/-- The matched-id set of `DocRegistry.search` before the limit cut
(`registry.py` lines 161-180): tally per candidate id how many query
tokens contributed it and keep the ids whose tally equals the token
count.  Python iterates sets/dicts in unspecified order; the embedding
fixes first-seen order. -/
def searchCore (index : List (PyStr × List String)) (keyword : String) :
    List String :=
  let words := queryTokens keyword
  let candidates := pyDedup (words.flatMap (wordResults index))
  candidates.filter fun f =>
    words.countP (fun w => (wordResults index w).contains f) == words.length

/-- `DocRegistry.search` (`registry.py` lines 153-188): matched ids cut to
`limit`, each resolved in the catalog and rendered as a search result. -/
def search (functions : List (String × FunctionInfo))
    (index : List (PyStr × List String)) (keyword : String) (limit : Nat) :
    List SearchResult :=
  ((searchCore index keyword).take limit).filterMap fun full_name =>
    (List.lookup full_name functions).map to_search_result

/-! ## `registry.py`: dispatch -/

/-- Outcome of `DocRegistry.call` as seen by its direct caller: either a
returned value (`raised` never happened) or an exception escaping the
method. -/
inductive CallResult where
  | ok (v : Value)
  | raised (msg : String)

/-- The external provider namespace (the `akshare` module): `getattr(ak,
name, None)` yields `none` or a callable; a callable takes keyword
arguments and returns a value or raises (`Except.error` carries
`str(e)`). -/
abbrev Provider := String → Option (List (String × Value) → Except String Value)

/-- The resolution step of `DocRegistry.call` (`registry.py` lines
196-203): the reference as an exact catalog key, else with `ak_`
prepended. -/
def resolveInfo (functions : List (String × FunctionInfo))
    (func_name : String) : Option FunctionInfo :=
  match List.lookup func_name functions with
  | some i => some i
  | none => List.lookup ("ak_" ++ func_name) functions

/-- `DocRegistry.call` (`registry.py` lines 194-221).  An unresolvable
reference raises `ValueError` (line 206) — this raise is outside the `try`
block and escapes the method.  Inside the `try`: a provider-namespace miss
raises `ValueError` (line 215) which the `except Exception` handler
converts to `{"error": str(e)}`, and any fault of the callable is
converted the same way. -/
def call (functions : List (String × FunctionInfo)) (ak : Provider)
    (func_name : String) (params : List (String × Value)) : CallResult :=
  match resolveInfo functions func_name with
  | none => .raised ("未找到函数: " ++ func_name)
  | some info =>
    match ak info.name with
    | none => .ok (.dict [("error", .str ("无法找到函数: " ++ info.name))])
    | some f =>
      match f params with
      | .ok result => .ok result
      | .error e => .ok (.dict [("error", .str e)])

/-! ## Concrete fixtures and small helpers used by the statements -/

/-- A minimal catalog record with the given bare and full name. -/
def sampleInfo (bare full : String) : FunctionInfo :=
  { name := bare, full_name := full, category := "test", description := "",
    params := [], doc_path := "docs/test.md" }

/-- Number of records under the `"data"` key of a formatted value. -/
def dataLength (v : Value) : Option Nat :=
  match valLookup v "data" with
  | some (.list xs) => some xs.length
  | _ => none

/-- Whether the first element of a list is a `DataFrame`
(`isinstance(items[0], pd.DataFrame)` on a nonempty list). -/
def firstIsDf : List Value → Bool
  | .df _ :: _ => true
  | _ => false

/-! ## Helper lemmas -/

/-- Membership in the dedup accumulator run. -/
theorem mem_pyDedupAux [BEq α] [LawfulBEq α] (l : List α) :
    ∀ (seen : List α) (x : α),
      x ∈ pyDedupAux l seen ↔ x ∈ l ∧ x ∉ seen := by
  induction l with
  | nil => intro seen x; simp [pyDedupAux]
  | cons y ys ih =>
    intro seen x
    cases hy : seen.contains y with
    | true =>
      rw [pyDedupAux, if_pos hy, ih]
      have hy' : y ∈ seen := List.elem_iff.mp hy
      constructor
      · rintro ⟨h1, h2⟩; exact ⟨List.mem_cons_of_mem _ h1, h2⟩
      · rintro ⟨h1, h2⟩
        rcases List.mem_cons.mp h1 with rfl | h1
        · exact absurd hy' h2
        · exact ⟨h1, h2⟩
    | false =>
      rw [pyDedupAux, if_neg (fun h => by rw [hy] at h; cases h),
        List.mem_cons, ih]
      have hy' : y ∉ seen := fun h => by
        have h2 : seen.contains y = true := List.elem_iff.mpr h
        rw [hy] at h2; cases h2
      constructor
      · rintro (rfl | ⟨h1, h2⟩)
        · exact ⟨List.mem_cons_self _ _, hy'⟩
        · exact ⟨List.mem_cons_of_mem _ h1,
            fun h => h2 (List.mem_cons_of_mem _ h)⟩
      · rintro ⟨h1, h2⟩
        rcases List.mem_cons.mp h1 with rfl | h1
        · exact Or.inl rfl
        · by_cases hxy : x = y
          · exact Or.inl hxy
          · refine Or.inr ⟨h1, fun hmem => ?_⟩
            rcases List.mem_cons.mp hmem with h | h
            · exact hxy h
            · exact h2 h

/-- `pyDedup` preserves membership. -/
theorem mem_pyDedup [BEq α] [LawfulBEq α] (l : List α) (x : α) :
    x ∈ pyDedup l ↔ x ∈ l := by
  rw [pyDedup, mem_pyDedupAux]; simp

/-- A successful association-list lookup locates a pair of the list. -/
theorem lookup_mem_pair [BEq α] [LawfulBEq α] {l : List (α × β)} {k : α}
    {v : β} (h : List.lookup k l = some v) : (k, v) ∈ l := by
  induction l with
  | nil => simp [List.lookup] at h
  | cons p rest ih =>
    obtain ⟨a, b⟩ := p
    rw [List.lookup] at h
    cases hk : k == a with
    | true =>
      rw [hk] at h
      cases h
      have : k = a := eq_of_beq hk
      subst this
      exact List.mem_cons_self _ _
    | false =>
      rw [hk] at h
      exact List.mem_cons_of_mem _ (ih h)

/-- `startswith` characterization: `pre.data.isPrefixOf s.data` holds
exactly when `s` extends `pre` on the right. -/
theorem startswith_iff (pre s : String) :
    List.isPrefixOf pre.data s.data = true ↔ ∃ rest : String, s = pre ++ rest := by
  rw [List.isPrefixOf_iff_prefix]
  constructor
  · rintro ⟨t, ht⟩
    refine ⟨String.mk t, String.ext ?_⟩
    rw [String.data_append]
    exact ht.symm
  · rintro ⟨rest, rfl⟩
    exact ⟨rest.data, (String.data_append _ _).symm⟩

/-! ## Claim theorems -/

/-- Claim C1 (code evaluated at the failing input): for a function
reference that resolves neither directly nor with the `ak_` prefix
prepended, `DocRegistry.call` does not return a `NotFound` outcome — the
`ValueError` raised at `registry.py` line 206 escapes to the caller
(`server.py` expects a `FunctionNotFoundError` that `registry.py` never
defines nor raises). -/
theorem call_unregistered_raises :
    call [("ak_other", sampleInfo "other" "ak_other")] (fun _ => none)
        "nonexistent_function" [] =
      CallResult.raised "未找到函数: nonexistent_function" ∧
    call [("ak_other", sampleInfo "other" "ak_other")] (fun _ => none)
        "ak_missing" [] =
      CallResult.raised "未找到函数: ak_missing" := by
  exact ⟨rfl, rfl⟩

set_option maxRecDepth 100000 in
/-- Claim C2 (code evaluated at the failing input): formatting a 150-row
single-column frame with `max_rows = 100` yields 100 records and a
`warning`, but `total_rows = 100` — `formatters.py` line 76 computes
`len(df)` after line 44 already truncated `df`, so the original row count
150 is lost; a 50-row frame is returned whole with no truncation keys. -/
theorem format_dataframe_truncation_eval :
    valLookup (format_dataframe (fun _ c => c)
        ⟨["a"], List.replicate 150 [Cell.int 7]⟩ 100) "total_rows" =
      some (Value.int 100) ∧
    valLookup (format_dataframe (fun _ c => c)
        ⟨["a"], List.replicate 150 [Cell.int 7]⟩ 100) "warning" =
      some (Value.str "数据已截断，只显示前 100 行") ∧
    dataLength (format_dataframe (fun _ c => c)
        ⟨["a"], List.replicate 150 [Cell.int 7]⟩ 100) = some 100 ∧
    some (Value.int 100) ≠ some (Value.int 150) ∧
    format_dataframe (fun _ c => c)
        ⟨["a"], List.replicate 50 [Cell.int 7]⟩ 100 =
      Value.dict [("data",
        Value.list (List.replicate 50 (Value.dict [("a", Value.int 7)])))] := by
  refine ⟨rfl, rfl, rfl, ?_, rfl⟩
  intro h
  injection h with h2
  injection h2 with h3
  omega

/-- Claim C3 counterexample: a provider callable raising `boom` makes
`call` return the mapping `{"error": "boom"}` — the original message is
carried, but the resolved function id (`foo` / `ak_foo`) appears nowhere
in the outcome, neither as a field nor inside the message, so the outcome
does not carry the function id. -/
theorem call_provider_error_no_id :
    call [("ak_foo", sampleInfo "foo" "ak_foo")]
        (fun _ => some (fun _ => Except.error "boom")) "ak_foo" [] =
      CallResult.ok (Value.dict [("error", Value.str "boom")]) ∧
    pyIn "foo".data "boom".data = false :=
  ⟨rfl, by decide⟩

/-- Claim C3 (amended): whenever the resolved provider callable raises,
`call` captures the fault and returns the mapping `{"error": <original
message>}` — the message is carried verbatim, no function id is attached,
and no exception propagates to the caller. -/
theorem call_provider_error_captured
    (functions : List (String × FunctionInfo)) (ak : Provider)
    (func_name : String) (params : List (String × Value))
    (info : FunctionInfo) (f : List (String × Value) → Except String Value)
    (msg : String)
    (hres : resolveInfo functions func_name = some info)
    (hak : ak info.name = some f)
    (hf : f params = Except.error msg) :
    call functions ak func_name params =
      CallResult.ok (Value.dict [("error", Value.str msg)]) := by
  simp [call, hres, hak, hf]

/-- Closed instance of `call_provider_error_captured` with every
hypothesis discharged on concrete input. -/
theorem call_provider_error_captured_witness :
    resolveInfo [("ak_foo", sampleInfo "foo" "ak_foo")] "foo" =
        some (sampleInfo "foo" "ak_foo") ∧
    call [("ak_foo", sampleInfo "foo" "ak_foo")]
        (fun _ => some (fun _ => Except.error "oops")) "foo" [] =
      CallResult.ok (Value.dict [("error", Value.str "oops")]) :=
  ⟨rfl, call_provider_error_captured _ _ "foo" []
      (sampleInfo "foo" "ak_foo") (fun _ => Except.error "oops") "oops"
      rfl rfl rfl⟩

/-- Claim C4 counterexample: with `foo` registered in the catalog but
absent from the provider namespace, `call "ak_foo"` returns the mapping
`{"error": "无法找到函数: foo"}` (the line-215 `ValueError` is caught by
the `except` handler), while the catalog miss `call "bar"` raises — the
two outcomes are not identical, refuting the claim that a
provider-namespace miss and a catalog miss produce the same outcome. -/
theorem provider_miss_not_notfound :
    call [("ak_foo", sampleInfo "foo" "ak_foo")] (fun _ => none) "ak_foo" [] =
      CallResult.ok (Value.dict [("error", Value.str "无法找到函数: foo")]) ∧
    call [("ak_foo", sampleInfo "foo" "ak_foo")] (fun _ => none) "bar" [] =
      CallResult.raised "未找到函数: bar" ∧
    CallResult.ok (Value.dict [("error", Value.str "无法找到函数: foo")]) ≠
      CallResult.raised "未找到函数: bar" :=
  ⟨rfl, rfl, fun h => CallResult.noConfusion h⟩

/-- Claim C4 (amended): a resolved record whose bare name is absent from
the provider namespace yields the returned mapping
`{"error": "无法找到函数: <bareName>"}` (same shape as a provider fault),
not the raised `ValueError` that an unresolvable catalog reference
produces. -/
theorem call_provider_miss_error_dict
    (functions : List (String × FunctionInfo)) (ak : Provider)
    (func_name : String) (params : List (String × Value))
    (info : FunctionInfo)
    (hres : resolveInfo functions func_name = some info)
    (hak : ak info.name = none) :
    call functions ak func_name params =
      CallResult.ok (Value.dict
        [("error", Value.str ("无法找到函数: " ++ info.name))]) := by
  simp [call, hres, hak]

/-- Closed instance of `call_provider_miss_error_dict` with every
hypothesis discharged on concrete input. -/
theorem call_provider_miss_error_dict_witness :
    resolveInfo [("ak_foo", sampleInfo "foo" "ak_foo")] "ak_foo" =
        some (sampleInfo "foo" "ak_foo") ∧
    call [("ak_foo", sampleInfo "foo" "ak_foo")] (fun _ => none) "ak_foo" [] =
      CallResult.ok (Value.dict [("error", Value.str "无法找到函数: foo")]) :=
  ⟨rfl, call_provider_miss_error_dict _ _ "ak_foo" []
      (sampleInfo "foo" "ak_foo") rfl rfl⟩

/-- Claim C5: the canonical id (`registry.py` lines 113-118) is
`"ak_" ++ bareName` when the bare name starts with `category ++ "_"`, and
`"ak_" ++ category ++ "_" ++ bareName` otherwise; `derive_full_name` is a
function of `(category, bareName)`, hence deterministic, and the two
specified instances evaluate as stated. -/
theorem derive_full_name_spec :
    (∀ category func_name rest : String,
        func_name = category ++ "_" ++ rest →
        derive_full_name category func_name = "ak_" ++ func_name) ∧
    (∀ category func_name : String,
        (∀ rest : String, func_name ≠ category ++ "_" ++ rest) →
        derive_full_name category func_name =
          "ak_" ++ category ++ "_" ++ func_name) ∧
    derive_full_name "futures" "futures_inventory_em" =
      "ak_futures_inventory_em" ∧
    derive_full_name "stock" "zh_a_spot_em" = "ak_stock_zh_a_spot_em" := by
  refine ⟨?_, ?_, rfl, rfl⟩
  · intro category func_name rest h
    have hp : List.isPrefixOf (category ++ "_").data func_name.data = true :=
      (startswith_iff _ _).mpr ⟨rest, h⟩
    rw [derive_full_name, if_pos hp]
  · intro category func_name h
    cases hp : List.isPrefixOf (category ++ "_").data func_name.data with
    | true =>
      obtain ⟨rest, hrest⟩ := (startswith_iff _ _).mp hp
      exact absurd hrest (h rest)
    | false =>
      rw [derive_full_name, if_neg (fun hc => by rw [hp] at hc; cases hc)]

/-- Closed instance of `derive_full_name_spec` with the hypotheses of both
universally quantified parts discharged on concrete input. -/
theorem derive_full_name_spec_witness :
    ("a_b" : String) = "a" ++ "_" ++ "b" ∧
    derive_full_name "a" "a_b" = "ak_a_b" ∧
    (∀ rest : String, ("" : String) ≠ "x" ++ "_" ++ rest) ∧
    derive_full_name "x" "" = "ak_x_" := by
  have hne : ∀ rest : String, ("" : String) ≠ "x" ++ "_" ++ rest := by
    intro rest h
    have hl := congrArg String.length h
    rw [String.length_append, String.length_append] at hl
    have h0 : String.length "" = 0 := rfl
    have h1 : String.length "x" = 1 := rfl
    have h2 : String.length "_" = 1 := rfl
    rw [h0, h1, h2] at hl
    omega
  exact ⟨by decide, derive_full_name_spec.1 "a" "a_b" "b" (by decide),
    hne, derive_full_name_spec.2.1 "x" "" hne⟩

/-- Claim C8: `initialize()` is idempotent — the second call sees the
`_initialized` flag and is a no-op, so two calls produce a state
(catalog and index) identical to one call. -/
theorem initialize_registry_idempotent
    (docs : Option (List (String × List DocBlock))) (docs_dir : String)
    (st : RegistryState) :
    initialize_registry docs docs_dir
        (initialize_registry docs docs_dir st) =
      initialize_registry docs docs_dir st ∧
    (st.initialized = true → initialize_registry docs docs_dir st = st) := by
  constructor
  · by_cases h : st.initialized
    · simp [initialize_registry, h]
    · simp [initialize_registry, h]
  · intro h
    simp [initialize_registry, h]

/-- Closed instance of `initialize_registry_idempotent` with its
hypothesis discharged on concrete input. -/
theorem initialize_registry_idempotent_witness :
    (RegistryState.mk [] [] true).initialized = true ∧
    initialize_registry none "docs" (RegistryState.mk [] [] true) =
      RegistryState.mk [] [] true :=
  ⟨rfl, (initialize_registry_idempotent none "docs"
      (RegistryState.mk [] [] true)).2 rfl⟩

/-- `dropWhile` consumes a list all of whose elements satisfy the
predicate. -/
theorem dropWhile_eq_nil_of_all (l : List Char) (p : Char → Bool)
    (h : l.all p = true) : l.dropWhile p = [] := by
  induction l with
  | nil => rfl
  | cons c cs ih =>
    simp only [List.all_cons, Bool.and_eq_true] at h
    rw [List.dropWhile_cons, if_pos h.1]
    exact ih h.2

/-- Lowercasing fixes whitespace characters. -/
theorem toLower_of_isPySpace (c : Char) (h : isPySpace c = true) :
    Char.toLower c = c := by
  simp only [isPySpace, Bool.or_eq_true, beq_iff_eq] at h
  rcases h with ((((rfl | rfl) | rfl) | rfl) | rfl) | rfl <;> decide

/-- An all-whitespace query tokenizes to no tokens. -/
theorem queryTokens_all_space (keyword : String)
    (h : keyword.data.all isPySpace = true) : queryTokens keyword = [] := by
  have hmap : toLowerL keyword.data = keyword.data := by
    rw [toLowerL]
    have he : keyword.data.map Char.toLower = keyword.data.map id :=
      List.map_congr_left (fun c hc =>
        toLower_of_isPySpace c (List.all_eq_true.mp h c hc))
    rw [he, List.map_id]
  have h1 : keyword.data.dropWhile isPySpace = [] :=
    dropWhile_eq_nil_of_all _ _ h
  unfold queryTokens
  rw [hmap]
  unfold pyStrip
  rw [h1]
  rfl

/-- Claim C9: a query that is empty or consists only of whitespace yields
no tokens, hence no candidates, hence an empty search result, for every
registry state and limit. -/
theorem search_whitespace_query_empty
    (functions : List (String × FunctionInfo))
    (index : List (PyStr × List String)) (keyword : String) (limit : Nat)
    (h : keyword.data.all isPySpace = true) :
    search functions index keyword limit = [] := by
  have ht := queryTokens_all_space keyword h
  unfold search searchCore
  rw [ht]
  simp [pyDedup, pyDedupAux]

/-- Closed instance of `search_whitespace_query_empty` with its hypothesis
discharged on concrete input. -/
theorem search_whitespace_query_empty_witness :
    (("  " : String).data.all isPySpace = true) ∧
    search [] [] "  " 20 = [] :=
  ⟨by decide, search_whitespace_query_empty [] [] "  " 20 (by decide)⟩

/-- Claim C10: `format_result` on a list whose first element is not a
`DataFrame` — including the empty list — wraps the elements unchanged in a
single-key `{"data": items}` mapping; the per-element formatting and
truncation path of `_format_list` applies only when the first element is a
`DataFrame`. -/
theorem format_result_plain_list (dtConv : String → Cell → Cell)
    (xs : List Value) (max_rows : Nat)
    (h : firstIsDf xs = false) :
    format_result dtConv (Value.list xs) max_rows =
      Except.ok (Value.dict [("data", Value.list xs)]) := by
  have hl : format_result dtConv (Value.list xs) max_rows =
      format_list dtConv xs max_rows := by
    rw [format_result]
  rw [hl]
  cases xs with
  | nil => rfl
  | cons x rest =>
    cases x <;> first
      | rfl
      | (exfalso; simp [firstIsDf] at h)

/-- Closed instance of `format_result_plain_list` with its hypothesis
discharged on concrete input. -/
theorem format_result_plain_list_witness :
    firstIsDf [Value.int 1, Value.str "a"] = false ∧
    format_result (fun _ c => c)
        (Value.list [Value.int 1, Value.str "a"]) 100 =
      Except.ok (Value.dict
        [("data", Value.list [Value.int 1, Value.str "a"])]) :=
  ⟨rfl, format_result_plain_list _ [Value.int 1, Value.str "a"] 100 rfl⟩

/-- `jsonSafe` on a mapping is `jsonSafeKVs` of its entries. -/
theorem jsonSafe_dict (kvs : List (String × Value)) :
    jsonSafe (Value.dict kvs) = jsonSafeKVs kvs := by
  rw [jsonSafe.eq_def]

/-- `jsonSafe` on a list is `jsonSafeList` of its elements. -/
theorem jsonSafe_list (xs : List Value) :
    jsonSafe (Value.list xs) = jsonSafeList xs := by
  rw [jsonSafe.eq_def]

/-- Strings are JSON-serializable. -/
theorem jsonSafe_str (s : String) : jsonSafe (Value.str s) = true := by
  rw [jsonSafe.eq_def]

/-- Integers are JSON-serializable. -/
theorem jsonSafe_int (n : Int) : jsonSafe (Value.int n) = true := by
  rw [jsonSafe.eq_def]

/-- Normalized cells are JSON-serializable: dates became strings, missing
values became null, and the remaining scalars are JSON primitives. -/
theorem jsonSafe_normCellVal (c : Cell) : jsonSafe (normCellVal c) = true := by
  cases c <;> simp [normCellVal, cellToValue, jsonSafe]

/-- A mapping all of whose values are JSON-serializable is
JSON-serializable. -/
theorem jsonSafeKVs_eq_true (kvs : List (String × Value))
    (h : ∀ p ∈ kvs, jsonSafe p.2 = true) : jsonSafeKVs kvs = true := by
  induction kvs with
  | nil => rw [jsonSafeKVs]
  | cons p rest ih =>
    obtain ⟨k, v⟩ := p
    have h1 : jsonSafe v = true := h (k, v) (List.mem_cons_self _ _)
    have h2 := ih (fun q hq => h q (List.mem_cons_of_mem _ hq))
    rw [jsonSafeKVs, h1, h2]
    rfl

/-- A list all of whose elements are JSON-serializable is
JSON-serializable. -/
theorem jsonSafeList_eq_true (xs : List Value)
    (h : ∀ x ∈ xs, jsonSafe x = true) : jsonSafeList xs = true := by
  induction xs with
  | nil => rw [jsonSafeList]
  | cons x rest ih =>
    have h1 : jsonSafe x = true := h x (List.mem_cons_self _ _)
    have h2 := ih (fun y hy => h y (List.mem_cons_of_mem _ hy))
    rw [jsonSafeList, h1, h2]
    rfl

/-- Claim C7 counterexample: a bare `datetime` scalar reaches the final
`return result` of `format_result` unchanged, so the output contains a
native date/time leaf — the universal JSON-safety guarantee fails outside
the tabular path. -/
theorem format_result_datetime_passthrough :
    format_result (fun _ c => c) (Value.datetime "2024-01-01 00:00:00") 100 =
      Except.ok (Value.datetime "2024-01-01 00:00:00") ∧
    jsonSafe (Value.datetime "2024-01-01 00:00:00") = false := by
  constructor
  · simp [format_result]
  · rw [jsonSafe.eq_def]

/-- Claim C7 (amended): on the tabular path the guarantee does hold — for
every column conversion, every frame and every row bound, the value
produced by `_format_dataframe` is entirely JSON-safe (dates became
strings, missing cells became null, the attached `warning`/`total_rows`
fields are string/integer). -/
theorem format_dataframe_jsonSafe (dtConv : String → Cell → Cell)
    (df : DFrame) (max_rows : Nat) :
    jsonSafe (format_dataframe dtConv df max_rows) = true := by
  have hdata : ∀ rows : List (List Cell),
      jsonSafe (Value.list (rows.map fun row =>
        Value.dict ((df.cols.zip row).map fun cv =>
          (cv.1, normCellVal (dtConv cv.1 cv.2))))) = true := by
    intro rows
    rw [jsonSafe_list]
    apply jsonSafeList_eq_true
    intro x hx
    rw [List.mem_map] at hx
    obtain ⟨row, _, rfl⟩ := hx
    rw [jsonSafe_dict]
    apply jsonSafeKVs_eq_true
    intro p hp
    rw [List.mem_map] at hp
    obtain ⟨cv, _, rfl⟩ := hp
    exact jsonSafe_normCellVal _
  simp only [format_dataframe]
  by_cases h : max_rows < df.rows.length
  · rw [if_pos (decide_eq_true h), if_pos h, jsonSafe_dict]
    apply jsonSafeKVs_eq_true
    intro p hp
    simp only [List.mem_cons, List.not_mem_nil, or_false] at hp
    rcases hp with rfl | rfl | rfl
    · exact hdata _
    · exact jsonSafe_str _
    · exact jsonSafe_int _
  · rw [if_neg (fun hc => h (of_decide_eq_true hc)), if_neg h, jsonSafe_dict]
    apply jsonSafeKVs_eq_true
    intro p hp
    simp only [List.mem_cons, List.not_mem_nil, or_false] at hp
    rcases hp with rfl
    exact hdata _

/-- `pyIn` decides substring containment. -/
theorem pyIn_iff (a b : PyStr) : pyIn a b = true ↔ a <:+: b := by
  simp [pyIn]

/-- Membership in the per-token candidate set `word_results`: an id is a
candidate of `word` exactly when some index entry holds it under a keyword
equal to the token or related to it by bidirectional substring
containment. -/
theorem mem_wordResults (index : List (PyStr × List String)) (word : PyStr)
    (f : String) :
    f ∈ wordResults index word ↔
      ∃ kf ∈ index, f ∈ kf.2 ∧
        (word = kf.1 ∨ word <:+: kf.1 ∨ kf.1 <:+: word) := by
  simp only [wordResults]
  rw [mem_pyDedup, List.mem_append]
  constructor
  · rintro (hex | hfz)
    · cases hlk : List.lookup word index with
      | none => rw [hlk] at hex; cases hex
      | some fs =>
        rw [hlk] at hex
        exact ⟨(word, fs), lookup_mem_pair hlk, hex, Or.inl rfl⟩
    · rw [List.mem_flatMap] at hfz
      obtain ⟨⟨kw, funcs⟩, hkf, hf⟩ := hfz
      by_cases hc : (pyIn word kw || pyIn kw word) = true
      · rw [if_pos hc] at hf
        refine ⟨(kw, funcs), hkf, hf, ?_⟩
        rcases Bool.or_eq_true_iff.mp hc with h1 | h1
        · exact Or.inr (Or.inl ((pyIn_iff _ _).mp h1))
        · exact Or.inr (Or.inr ((pyIn_iff _ _).mp h1))
      · rw [if_neg hc] at hf
        cases hf
  · rintro ⟨⟨kw, funcs⟩, hkf, hf, hcond⟩
    right
    rw [List.mem_flatMap]
    refine ⟨(kw, funcs), hkf, ?_⟩
    have hc : (pyIn word kw || pyIn kw word) = true := by
      rcases hcond with heq | h | h
      · subst heq
        rw [Bool.or_eq_true_iff]
        exact Or.inl ((pyIn_iff _ _).mpr (List.infix_refl _))
      · rw [Bool.or_eq_true_iff]
        exact Or.inl ((pyIn_iff _ _).mpr h)
      · rw [Bool.or_eq_true_iff]
        exact Or.inr ((pyIn_iff _ _).mpr h)
    rw [if_pos hc]
    exact hf

/-- Membership in the pre-limit matched set of `search`: an id is matched
exactly when the query has at least one token and the id is a candidate of
every token (the tally of contributing tokens equals the token count). -/
theorem mem_searchCore (index : List (PyStr × List String)) (keyword : String)
    (f : String) :
    f ∈ searchCore index keyword ↔
      queryTokens keyword ≠ [] ∧
        ∀ w ∈ queryTokens keyword, f ∈ wordResults index w := by
  simp only [searchCore]
  rw [List.mem_filter, mem_pyDedup, List.mem_flatMap]
  constructor
  · rintro ⟨⟨w, hw, hfw⟩, hcount⟩
    have hlen : (queryTokens keyword).countP
        (fun w => (wordResults index w).contains f) =
        (queryTokens keyword).length := eq_of_beq hcount
    have hall := List.countP_eq_length.mp hlen
    refine ⟨fun hnil => ?_, fun w2 hw2 => ?_⟩
    · rw [hnil] at hw; cases hw
    · exact List.elem_iff.mp (hall w2 hw2)
  · rintro ⟨hne, hall⟩
    obtain ⟨w, hw⟩ := List.exists_mem_of_ne_nil _ hne
    refine ⟨⟨w, hw, hall w hw⟩, ?_⟩
    have hcnt : (queryTokens keyword).countP
        (fun w => (wordResults index w).contains f) =
        (queryTokens keyword).length :=
      List.countP_eq_length.mpr
        (fun a ha => List.elem_iff.mpr (hall a ha))
    rw [hcnt]
    exact beq_self_eq_true _

/-- Claim C6: search is logical AND over the whitespace-split query
tokens — a matched id is a candidate of every token (each token relates to
some keyword holding the id, exactly or by bidirectional substring
containment), and consequently the matched set of a single-token query
contains the matched set of the corresponding two-token query. -/
theorem search_token_and :
    (∀ (index : List (PyStr × List String)) (keyword : String) (f : String),
        f ∈ searchCore index keyword →
        ∀ w ∈ queryTokens keyword,
          ∃ kf ∈ index, f ∈ kf.2 ∧
            (w = kf.1 ∨ w <:+: kf.1 ∨ kf.1 <:+: w)) ∧
    (∀ (index : List (PyStr × List String)) (q₁ q₂ : String) (t u : PyStr),
        queryTokens q₁ = [t] → queryTokens q₂ = [t, u] →
        ∀ f : String, f ∈ searchCore index q₂ → f ∈ searchCore index q₁) := by
  constructor
  · intro index keyword f hf w hw
    exact (mem_wordResults index w f).mp
      (((mem_searchCore index keyword f).mp hf).2 w hw)
  · intro index q₁ q₂ t u h1 h2 f hf
    have hm := (mem_searchCore index q₂ f).mp hf
    rw [h2] at hm
    apply (mem_searchCore index q₁ f).mpr
    rw [h1]
    refine ⟨by simp, fun w hw => ?_⟩
    rw [List.mem_singleton] at hw
    subst hw
    exact hm.2 _ (List.mem_cons_self _ _)

/-- Closed instance of `search_token_and` with every hypothesis of both
parts discharged on concrete input. -/
theorem search_token_and_witness :
    queryTokens "foo" = ["foo".data] ∧
    queryTokens "foo bar" = ["foo".data, "bar".data] ∧
    "f1" ∈ searchCore [("foo".data, ["f1"]), ("bar".data, ["f1"])] "foo bar" ∧
    "f1" ∈ searchCore [("foo".data, ["f1"]), ("bar".data, ["f1"])] "foo" ∧
    (∃ kf ∈ [("foo".data, ["f1"]), ("bar".data, ["f1"])],
      ("f1" : String) ∈ kf.2 ∧
        ("foo".data = kf.1 ∨ "foo".data <:+: kf.1 ∨ kf.1 <:+: "foo".data)) := by
  refine ⟨by decide, by decide, by decide, ?_, ?_⟩
  · exact search_token_and.2 [("foo".data, ["f1"]), ("bar".data, ["f1"])]
      "foo" "foo bar" "foo".data "bar".data (by decide) (by decide) "f1"
      (by decide)
  · exact search_token_and.1 [("foo".data, ["f1"]), ("bar".data, ["f1"])]
      "foo bar" "f1" (by decide) "foo".data (by decide)
